import Mathlib

/-!
Verification development for the mitsuba scene-description loader
(`src/src/libcore/xml.cpp`): a shallow embedding of the loader's data
model and operations, with theorems settling the spec's claims about it.
Machine floats of the source are modelled as rationals; strings and
character classification follow the C (ASCII) locale the source uses.
-/

namespace MitsubaXML

/-! ### Pass-2 expansion binding (`instantiate_node`, xml.cpp lines 979-989)

After a named reference is instantiated, the resulting object may expand
into a list of replacement objects which are bound into the parent's
property bag.  The source loop is

    int ctr = 0;
    for (auto c : children)
        props.set_object(kv.first + "_" + std::to_string(ctr++), children[0], false);

note that the bound value is `children[0]` for every slot. -/

/-- The list of (property name, object) bindings `instantiate_node` performs
for one named reference called `name` whose referent `obj` expanded into
`children`. -/
def bindExpanded {α : Type} (name : String) (obj : α) (children : List α) : List (String × α) :=
  match children with
  | [] => [(name, obj)]
  | [c] => [(name, c)]
  | c0 :: _ :: _ =>
      (List.range children.length).map (fun i => (name ++ "_" ++ toString i, c0))

/-! ### ASCII character handling (`std::islower` / `std::isupper` /
`std::tolower` in the C locale, and `string::to_lower`) -/

/-- `std::islower` in the C locale (ASCII). -/
def isLowerAscii (c : Char) : Bool := decide (97 ≤ c.toNat ∧ c.toNat ≤ 122)

/-- `std::isupper` in the C locale (ASCII). -/
def isUpperAscii (c : Char) : Bool := decide (65 ≤ c.toNat ∧ c.toNat ≤ 90)

/-- `std::tolower` in the C locale (ASCII). -/
def toLowerChar (c : Char) : Char :=
  if isUpperAscii c then Char.ofNat (c.toNat + 32) else c

/-- `string::to_lower`: lowercase every character of a string. -/
def toLowerAscii (s : String) : String := String.mk (s.data.map toLowerChar)

/-! ### Boolean attribute parsing (`parse_xml`, `EBoolean` case, lines 643-657)

    std::string value = string::to_lower(node.attribute("value").value());
    if (value == "true") ... else if (value == "false") ... else throw. -/

/-- The `EBoolean` case of `parse_xml`: the result bound by
`props.set_bool`, or the error raised. -/
def parseBooleanValue (raw : String) : Except String Bool :=
  let value := toLowerAscii raw
  if value = "true" then .ok true
  else if value = "false" then .ok false
  else .error "could not parse boolean value"

/-! ### camelCase-to-underscore upgrade loop (`upgrade_tree`, lines 311-326)

    std::string name = name_attrib.value();
    for (size_t i = 0; i < name.length() - 1; ++i) {
        if (std::islower(name[i]) && std::isupper(name[i + 1])) {
            name = name.substr(0, i + 1) + std::string("_") + name.substr(i + 1);
            i += 2;
            while (i < name.length() && std::isupper(name[i])) {
                name[i] = std::tolower(name[i]);
                ++i;
            }
        }
    }

`name.length() - 1` is `size_t` (unsigned 64-bit) arithmetic, which wraps
to `2^64 - 1` when the string is empty; out-of-bounds reads `name[i]`
with `i > length` are undefined behaviour, modelled here as reading the
NUL character. -/

/-- The loop bound `name.length() - 1` computed in `size_t` (unsigned
64-bit) arithmetic. -/
def sizeSub1 (l : Nat) : Nat := (l + 2 ^ 64 - 1) % 2 ^ 64

/-- Lowercase the leading run of uppercase characters of a character list. -/
def lowerRun : List Char → List Char
  | [] => []
  | c :: cs => if isUpperAscii c then toLowerChar c :: lowerRun cs else c :: cs

/-- The inner `while` of the camelCase rewrite: starting at index `i`,
lowercase the run of uppercase characters in place; returns the updated
characters and the index of the first position past the run (the loop
guard `i < name.length()` stops the run at the end of the string). -/
def lowerWhile (s : List Char) (i : Nat) : List Char × Nat :=
  (s.take i ++ lowerRun (s.drop i), i + ((s.drop i).takeWhile isUpperAscii).length)

/-- The outer `for` of the camelCase rewrite, with an explicit iteration
budget `fuel` (the C++ loop has no budget; each call consumes one test of
the loop guard `i < sizeSub1 length`).  Out-of-bounds reads return NUL. -/
def camelLoop : Nat → List Char → Nat → List Char
  | 0, s, _ => s
  | fuel + 1, s, i =>
      if i < sizeSub1 s.length then
        if isLowerAscii (s.getD i (Char.ofNat 0)) && isUpperAscii (s.getD (i + 1) (Char.ofNat 0)) then
          let s1 := s.take (i + 1) ++ ('_' :: s.drop (i + 1))
          let r := lowerWhile s1 (i + 2)
          camelLoop fuel r.1 (r.2 + 1)
        else
          camelLoop fuel s (i + 1)
      else s

/-- The camelCase-to-underscore rewrite applied to one `name` attribute
value (adequate fuel for any rewrite that terminates in-bounds). -/
def camelRename (s : String) : String :=
  String.mk (camelLoop (2 * s.length + 2) s.data 0)

/-- C1: the i-th expansion of a multiply-expanding referent is claimed to be
bound under `name + "_" + i`; evaluating the binding loop of
`instantiate_node` on a referent that expands into the two distinct objects
`1` and `2` shows every indexed slot receives the first expansion
(`children[0]`), so the binding under `"tex_1"` is `1`, not the second
expansion `2`. -/
theorem c1_expansion_binding_eval :
    bindExpanded "tex" (7 : ℕ) [1, 2] = [("tex_0", 1), ("tex_1", 1)] ∧
    bindExpanded "tex" (7 : ℕ) [1, 2] ≠ [("tex_0", 1), ("tex_1", 2)] := by
  constructor
  · rfl
  · decide

/-- C4 counterexample: the claim says every string other than the lowercased
`true` / `false` is rejected, in particular `True`; but the boolean case of
`parse_xml` lowercases its input first, so `"True"` parses successfully to
`true`. -/
theorem c4_boolean_counterexample :
    parseBooleanValue "True" = .ok true ∧ parseBooleanValue "TRUE" = .ok true := by
  constructor <;> rfl

/-- C4 amended: the boolean parser lowercases the attribute value and then
accepts exactly `true` and `false`; hence it accepts precisely the strings
whose ASCII-lowercased form is `true` (yielding `true`) or `false`
(yielding `false`), including mixed-case variants, and errors on all
others. -/
theorem c4_boolean_amended :
    (∀ s : String,
      (parseBooleanValue s = .ok true ↔ toLowerAscii s = "true") ∧
      (parseBooleanValue s = .ok false ↔ toLowerAscii s = "false") ∧
      ((∃ e, parseBooleanValue s = .error e) ↔
        (toLowerAscii s ≠ "true" ∧ toLowerAscii s ≠ "false"))) ∧
    parseBooleanValue "tRuE" = .ok true ∧
    parseBooleanValue "FALSE" = .ok false ∧
    parseBooleanValue "yes" = .error "could not parse boolean value" := by
  refine ⟨fun s => ?_, rfl, rfl, rfl⟩
  unfold parseBooleanValue
  by_cases h1 : toLowerAscii s = "true" <;> by_cases h2 : toLowerAscii s = "false" <;>
    simp [h1, h2]

/-- C9: for the empty `name` attribute value, the camelCase rewrite's loop
bound `name.length() - 1` underflows in `size_t` arithmetic to `2^64 - 1`,
so the loop guard admits index `0` although the read positions `0` and `1`
both lie outside the empty string; for every nonempty string of length
`l + 1` the bound is the intended `l` (reduced mod `2^64`). -/
theorem c9_camel_loop_empty_oob :
    sizeSub1 (String.length "") = 2 ^ 64 - 1 ∧
    0 < sizeSub1 (String.length "") ∧
    String.length "" < 0 + 1 + 1 ∧
    (∀ l : Nat, sizeSub1 (l + 1) = l % 2 ^ 64) := by
  refine ⟨by norm_num [sizeSub1], by norm_num [sizeSub1], by norm_num, fun l => ?_⟩
  unfold sizeSub1
  omega

/-! ### Document tree and the pre-2.0.0 upgrade (`upgrade_tree`, lines 303-376)

An XML element is modelled by its tag, its optional `name` attribute (the
one the camelCase rewrite touches), its remaining numeric attributes
(`value` / `x` / `y` of `float`, `translate` and `scale` elements, with
the `std::stof` / `std::to_string` round trip of the source abstracted to
rationals), and its children.  `upgrade_tree` for a pre-2.0.0 document
performs, in this order: (1) the camelCase rewrite of every `name`
attribute in the document, (2) renaming every `lookAt` element to
`lookat`, (3) for every element with a child `float` named `uoffset`,
`voffset`, `uscale` or `vscale`, removing those children and appending a
`transform name="to_uv"` with a `translate` (when the offsets are not both
0) and a `scale` (when the scales are not both 1). -/

/-- An in-memory document element. -/
inductive UElem where
  | mk (tag : String) (name : Option String) (nattrs : List (String × ℚ)) (children : List UElem)

/-- The element's tag. -/
def UElem.tag : UElem → String
  | .mk t _ _ _ => t

/-- The element's `name` attribute, when present. -/
def UElem.nameAttr : UElem → Option String
  | .mk _ n _ _ => n

/-- The element's numeric attributes. -/
def UElem.nattrs : UElem → List (String × ℚ)
  | .mk _ _ a _ => a

/-- The element's children. -/
def UElem.children : UElem → List UElem
  | .mk _ _ _ cs => cs

mutual

/-- Upgrade step 1 (`//@name` rewrite): apply the camelCase rewrite to every
`name` attribute in the tree. -/
def camelE : UElem → UElem
  | .mk t n a cs => .mk t (n.map camelRename) a (camelL cs)

/-- `camelE` mapped over a list of elements. -/
def camelL : List UElem → List UElem
  | [] => []
  | c :: cs => camelE c :: camelL cs

end

mutual

/-- Upgrade step 2 (`//lookAt` rename): rename every `lookAt` element to
`lookat`. -/
def lookatE : UElem → UElem
  | .mk t n a cs => .mk (if t = "lookAt" then "lookat" else t) n a (lookatL cs)

/-- `lookatE` mapped over a list of elements. -/
def lookatL : List UElem → List UElem
  | [] => []
  | c :: cs => lookatE c :: lookatL cs

end

/-- The four legacy texture-coordinate property names. -/
def uvNames : List String := ["uoffset", "voffset", "uscale", "vscale"]

/-- Whether an element is a `float` property named `nm` (the xpath test
`float[@name='nm']`). -/
def isUVFloat (nm : String) (e : UElem) : Bool :=
  e.tag == "float" && e.nameAttr == some nm

/-- The first child `float` named `nm` (`n.select_node("float[@name='nm']")`). -/
def findUV (nm : String) (cs : List UElem) : Option UElem :=
  cs.find? (isUVFloat nm)

/-- The element's `value` attribute read by `stof` (0 when absent). -/
def UElem.valueAttr (e : UElem) : ℚ :=
  (((e.nattrs.find? (fun kv => kv.1 == "value")).map Prod.snd).getD 0)

/-- Remove the first child satisfying `p` (`n.remove_child(...)` of the
node a single xpath select found). -/
def removeFirst (p : UElem → Bool) : List UElem → List UElem
  | [] => []
  | c :: cs => if p c then cs else c :: removeFirst p cs

/-- Remove the first `uoffset`, `voffset`, `uscale` and `vscale` float
children, in the order the source removes them. -/
def stripUV (cs : List UElem) : List UElem :=
  removeFirst (isUVFloat "vscale")
    (removeFirst (isUVFloat "uscale")
      (removeFirst (isUVFloat "voffset")
        (removeFirst (isUVFloat "uoffset") cs)))

/-- The appended `<transform name="to_uv">` element: a `translate` child
when the offsets differ from `(0, 0)` and a `scale` child when the scales
differ from `(1, 1)`. -/
def uvTransformElem (ox oy sx sy : ℚ) : UElem :=
  .mk "transform" (some "to_uv") []
    ((if (ox, oy) = ((0 : ℚ), (0 : ℚ)) then []
      else [.mk "translate" none [("x", ox), ("y", oy)] []]) ++
     (if (sx, sy) = ((1 : ℚ), (1 : ℚ)) then []
      else [.mk "scale" none [("x", sx), ("y", sy)] []]))

/-- Upgrade step 3 applied to one element's child list: when some child is a
`float` named `uoffset` / `voffset` / `uscale` / `vscale`, read the four
values (defaults: offsets 0, scales 1), remove those children and append
the `to_uv` transform. -/
def toUVChildren (cs : List UElem) : List UElem :=
  if uvNames.any (fun nm => (findUV nm cs).isSome) then
    let ox := ((findUV "uoffset" cs).map UElem.valueAttr).getD 0
    let oy := ((findUV "voffset" cs).map UElem.valueAttr).getD 0
    let sx := ((findUV "uscale" cs).map UElem.valueAttr).getD 1
    let sy := ((findUV "vscale" cs).map UElem.valueAttr).getD 1
    stripUV cs ++ [uvTransformElem ox oy sx sy]
  else cs

mutual

/-- Upgrade step 3 over the whole tree (the xpath
`//node()[float[@name='uoffset' or ...]]` visits every element; the
appended transform's children contain no `float` elements, so processing
bottom-up is equivalent to the source's select-then-mutate order). -/
def toUVE : UElem → UElem
  | .mk t n a cs => .mk t n a (toUVChildren (toUVL cs))

/-- `toUVE` mapped over a list of elements. -/
def toUVL : List UElem → List UElem
  | [] => []
  | c :: cs => toUVE c :: toUVL cs

end

/-- The structural rewrites `upgrade_tree` applies to a document whose
version is older than 2.0.0, in source order. -/
def upgradeLt2 (e : UElem) : UElem := toUVE (lookatE (camelE e))

/-- Lexicographic order on versions (`Version::operator<`). -/
def versionLt (a b : ℕ × ℕ × ℕ) : Bool :=
  decide (a.1 < b.1 ∨ (a.1 = b.1 ∧ (a.2.1 < b.2.1 ∨ (a.2.1 = b.2.1 ∧ a.2.2 < b.2.2))))

/-- `upgrade_tree`: a no-op for a document at the runtime version `cur`;
the pre-2.0.0 rewrites for versions older than 2.0.0; no structural change
otherwise. -/
def upgradeTree (cur ver : ℕ × ℕ × ℕ) (e : UElem) : UElem :=
  if ver = cur then e
  else if versionLt ver (2, 0, 0) then upgradeLt2 e
  else e

mutual

/-- Whether the tree contains a `transform` element named `to_uv`. -/
def hasToUVE : UElem → Bool
  | .mk t n _ cs => (t == "transform" && n == some "to_uv") || hasToUVL cs

/-- `hasToUVE` over a list of elements. -/
def hasToUVL : List UElem → Bool
  | [] => false
  | c :: cs => hasToUVE c || hasToUVL cs

end

/-- The claim's document: a 1.0.0 scene with a `lookAt` element and a BSDF
carrying `<float name="uOffset" value="0.5"/>`. -/
def c2Input : UElem :=
  .mk "scene" none []
    [.mk "lookAt" none [] [],
     .mk "bsdf" none [] [.mk "float" (some "uOffset") [("value", 1/2)] []]]

set_option maxRecDepth 8000 in
/-- C2 counterexample: upgrading the claim's 1.0.0 document does rename
`lookAt` to `lookat`, but the camelCase rewrite runs before the texture
coordinate conversion and turns `uOffset` into `u_offset`, which the xpath
`float[@name='uoffset' ...]` no longer matches: the float child survives
(renamed) and no `to_uv` transform is appended anywhere, contradicting the
claimed upgraded tree. -/
theorem c2_upgrade_counterexample :
    upgradeTree (2, 0, 0) (1, 0, 0) c2Input =
      .mk "scene" none []
        [.mk "lookat" none [] [],
         .mk "bsdf" none [] [.mk "float" (some "u_offset") [("value", 1/2)] []]] ∧
    hasToUVE (upgradeTree (2, 0, 0) (1, 0, 0) c2Input) = false := by
  constructor <;> rfl

set_option maxRecDepth 8000 in
/-- C2 amended: the `lookAt` rename does occur, but the camelCase rewrite
runs before the texture-coordinate conversion, so only child floats whose
names are exactly `uoffset` / `voffset` / `uscale` / `vscale` after that
rewrite trigger it (a `uOffset` float is renamed `u_offset` and survives
unconverted).  For a pre-2.0.0 document whose BSDF carries
`<float name="uoffset" value="q"/>` with `q ≠ 0`, the upgrade removes that
child and appends `<transform name="to_uv"><translate x="q" y="0"/></transform>`,
and renames `<lookAt>` to `<lookat>`. -/
theorem c2_upgrade_amended (q : ℚ) (hq : q ≠ 0) :
    upgradeTree (2, 0, 0) (1, 0, 0)
      (.mk "scene" none []
        [.mk "lookAt" none [] [],
         .mk "bsdf" none [] [.mk "float" (some "uoffset") [("value", q)] []]]) =
      .mk "scene" none []
        [.mk "lookat" none [] [],
         .mk "bsdf" none []
           [.mk "transform" (some "to_uv") []
              [.mk "translate" none [("x", q), ("y", 0)] []]]] := by
  have h0 : camelRename "uoffset" = "uoffset" := rfl
  simp [upgradeTree, versionLt, upgradeLt2, camelE, camelL, lookatE, lookatL, toUVE, toUVL,
        toUVChildren, uvNames, findUV, isUVFloat, stripUV, removeFirst, uvTransformElem,
        UElem.valueAttr, UElem.tag, UElem.nameAttr, UElem.nattrs, h0, hq]

/-- C2 witness: the amended upgrade theorem evaluated at the concrete
offset 0.5. -/
theorem c2_upgrade_amended_witness :
    upgradeTree (2, 0, 0) (1, 0, 0)
      (.mk "scene" none []
        [.mk "lookAt" none [] [],
         .mk "bsdf" none [] [.mk "float" (some "uoffset") [("value", 1/2)] []]]) =
      .mk "scene" none []
        [.mk "lookat" none [] [],
         .mk "bsdf" none []
           [.mk "transform" (some "to_uv") []
              [.mk "translate" none [("x", 1/2), ("y", 0)] []]]] :=
  c2_upgrade_amended (1/2) (by norm_num)

/-! ### Spectrum wavelength:value pairs (`parse_xml`, `ESpectrum` case,
lines 769-853)

The loop pushes each pair, then checks `distance = w[n-1] - w[n-2]`:
`distance < 0` raises "wavelengths must be specified in increasing order"
at once; the first distance becomes `interval`; afterwards
`distance - interval > math::Epsilon` merely clears `is_regular`, which
raises "Not implemented yet: irregularly sampled spectra." after the loop.
Within emitters each value is scaled by the unit conversion first. -/

/-- The loop state of the `ESpectrum` pair parser. -/
structure SpecState where
  wavelengths : List ℚ
  values : List ℚ
  isRegular : Bool
  interval : ℚ

/-- One iteration of the pair loop: push the (unit-converted) pair, then
perform the monotonicity and regularity bookkeeping. -/
def specStep (eps uc : ℚ) (st : SpecState) (wv : ℚ × ℚ) : Except String SpecState :=
  match st.wavelengths.getLast? with
  | none => .ok ⟨[wv.1], st.values ++ [wv.2 * uc], st.isRegular, st.interval⟩
  | some prev =>
      let distance := wv.1 - prev
      if distance < 0 then .error "wavelengths must be specified in increasing order"
      else if st.wavelengths.length = 1 then
        .ok ⟨st.wavelengths ++ [wv.1], st.values ++ [wv.2 * uc], st.isRegular, distance⟩
      else if eps < distance - st.interval then
        .ok ⟨st.wavelengths ++ [wv.1], st.values ++ [wv.2 * uc], false, st.interval⟩
      else
        .ok ⟨st.wavelengths ++ [wv.1], st.values ++ [wv.2 * uc], st.isRegular, st.interval⟩

/-- The `ESpectrum` multi-token branch on already-tokenized
wavelength:value pairs: run the loop, reject irregular spectra, otherwise
return the `interpolated` plugin's `(lambda_min, lambda_max, values)`. -/
def parseSpectrumPairs (eps uc : ℚ) (pairs : List (ℚ × ℚ)) : Except String (ℚ × ℚ × List ℚ) := do
  let st ← pairs.foldlM (specStep eps uc) ⟨[], [], true, 0⟩
  if st.isRegular then .ok (st.wavelengths.headD 0, st.wavelengths.getLastD 0, st.values)
  else .error "Not implemented yet: irregularly sampled spectra."

/-- Consecutive differences of a wavelength list, seeded by `prev`. -/
def chainDiffs : ℚ → List ℚ → List ℚ
  | _, [] => []
  | p, w :: ws => (w - p) :: chainDiffs w ws

/-- Consecutive differences of a wavelength list. -/
def diffs : List ℚ → List ℚ
  | [] => []
  | w :: ws => chainDiffs w ws

instance {ε α : Type} [DecidableEq ε] [DecidableEq α] : DecidableEq (Except ε α) := fun x y =>
  match x, y with
  | .ok a, .ok b =>
      if h : a = b then .isTrue (by rw [h]) else .isFalse (fun hh => by cases hh; exact h rfl)
  | .error e, .error f =>
      if h : e = f then .isTrue (by rw [h]) else .isFalse (fun hh => by cases hh; exact h rfl)
  | .ok _, .error _ => .isFalse (fun hh => by cases hh)
  | .error _, .ok _ => .isFalse (fun hh => by cases hh)

/-- Bind on a successful `Except` computes the continuation. -/
theorem exceptOkBind {ε α β : Type} (a : α) (f : α → Except ε β) :
    (Except.ok (ε := ε) a >>= f) = f a := rfl

/-- Bind on a failed `Except` short-circuits. -/
theorem exceptErrBind {ε α β : Type} (e : ε) (f : α → Except ε β) :
    (Except.error (α := α) e >>= f) = Except.error e := rfl

/-- Closed form of the pair loop once two wavelengths have been seen: the
loop fails iff some remaining consecutive difference is negative, and
otherwise only clears the regularity flag where a difference exceeds the
recorded first interval by more than epsilon. -/
theorem specFold_closed (eps uc : ℚ) (ps : List (ℚ × ℚ)) :
    ∀ (ws0 vs0 : List ℚ) (r : Bool) (i0 prev : ℚ), ws0.getLast? = some prev →
      ws0.length ≠ 1 →
      ps.foldlM (specStep eps uc) ⟨ws0, vs0, r, i0⟩ =
        (if (chainDiffs prev (ps.map Prod.fst)).any (fun d => decide (d < 0)) then
          .error "wavelengths must be specified in increasing order"
        else
          .ok ⟨ws0 ++ ps.map Prod.fst, vs0 ++ ps.map (fun p => p.2 * uc),
               r && !(chainDiffs prev (ps.map Prod.fst)).any (fun d => decide (eps < d - i0)),
               i0⟩) := by
  induction ps with
  | nil =>
      intro ws0 vs0 r i0 prev hlast hlen
      simp [chainDiffs]
      rfl
  | cons p rest ih =>
      intro ws0 vs0 r i0 prev hlast hlen
      have hne : ws0 ≠ [] := by
        intro h; rw [h] at hlast; simp at hlast
      have hne' : ws0.length ≠ 0 := fun h => hne (List.length_eq_zero.mp h)
      simp only [List.foldlM_cons, specStep, hlast, List.map_cons, chainDiffs, List.any_cons]
      by_cases hneg : p.1 - prev < 0
      · simp [hneg, exceptErrBind]
      · have hlen2 : (ws0 ++ [p.1]).length ≠ 1 := by
          rw [List.length_append]
          omega
        have hlast2 : (ws0 ++ [p.1]).getLast? = some p.1 := by
          simp [List.getLast?_append]
        by_cases hirr : eps < p.1 - prev - i0
        · simp only [hneg, if_false, hlen, if_false, hirr, if_true, exceptOkBind]
          rw [ih (ws0 ++ [p.1]) (vs0 ++ [p.2 * uc]) false i0 p.1 hlast2 hlen2]
          simp [hneg, hirr, List.append_assoc]
        · simp only [hneg, if_false, hlen, if_false, hirr, if_false, exceptOkBind]
          rw [ih (ws0 ++ [p.1]) (vs0 ++ [p.2 * uc]) r i0 p.1 hlast2 hlen2]
          simp [hneg, hirr, List.append_assoc]

/-- C3 counterexample: the claim says parsing fails whenever the
wavelengths are not strictly increasing (in particular when two
consecutive ones are equal), and whenever a spacing deviates from the
first interval by more than epsilon.  But `500:1 500:2` (equal
consecutive wavelengths, `distance = 0` is not `< 0`) parses successfully,
and so does `100:1 200:1 250:1`, whose second spacing 50 deviates from the
first interval 100 by far more than epsilon in the unchecked negative
direction. -/
theorem c3_spectrum_counterexample :
    parseSpectrumPairs (1 / 10000000) 1 [(500, 1), (500, 2)] = .ok (500, 500, [1, 2]) ∧
    parseSpectrumPairs (1 / 10000000) 1 [(100, 1), (200, 1), (250, 1)] =
      .ok (100, 250, [1, 1, 1]) := by
  constructor <;>
    norm_num [parseSpectrumPairs, specStep, List.foldlM_cons, List.foldlM_nil,
      List.getLast?, exceptOkBind]

/-- C3 amended: the `ESpectrum` pair loop errors with "wavelengths must be
specified in increasing order" exactly when some consecutive difference is
negative (equal wavelengths pass), and otherwise errors with the
irregular-spectrum message exactly when some later spacing exceeds the
first spacing by more than epsilon (the deviation check is one-sided);
otherwise it succeeds with the interpolated spectrum's bounds and
unit-converted values. -/
theorem c3_spectrum_amended (eps uc : ℚ) (ps : List (ℚ × ℚ)) :
    parseSpectrumPairs eps uc ps =
      (if (diffs (ps.map Prod.fst)).any (fun d => decide (d < 0)) then
        .error "wavelengths must be specified in increasing order"
      else if (diffs (ps.map Prod.fst)).tail.any
          (fun d => decide (eps < d - (diffs (ps.map Prod.fst)).headD 0)) then
        .error "Not implemented yet: irregularly sampled spectra."
      else
        .ok ((ps.map Prod.fst).headD 0, (ps.map Prod.fst).getLastD 0,
             ps.map (fun p => p.2 * uc))) := by
  match ps with
  | [] => rfl
  | [p1] => rfl
  | p1 :: p2 :: rest =>
    simp only [parseSpectrumPairs, List.foldlM_cons]
    have e1 : specStep eps uc ⟨[], [], true, 0⟩ p1 =
        .ok ⟨[p1.1], [] ++ [p1.2 * uc], true, 0⟩ := rfl
    rw [e1, exceptOkBind]
    by_cases hd : p2.1 - p1.1 < 0
    · have e2 : specStep eps uc ⟨[p1.1], [] ++ [p1.2 * uc], true, 0⟩ p2 =
          .error "wavelengths must be specified in increasing order" := by
        simp [specStep, hd]
      rw [e2, exceptErrBind, exceptErrBind]
      simp [diffs, chainDiffs, hd]
    · have e2 : specStep eps uc ⟨[p1.1], [] ++ [p1.2 * uc], true, 0⟩ p2 =
          .ok ⟨[p1.1] ++ [p2.1], ([] ++ [p1.2 * uc]) ++ [p2.2 * uc], true, p2.1 - p1.1⟩ := by
        simp [specStep, hd]
      rw [e2, exceptOkBind]
      rw [specFold_closed eps uc rest ([p1.1] ++ [p2.1]) (([] ++ [p1.2 * uc]) ++ [p2.2 * uc])
            true (p2.1 - p1.1) p2.1 (by simp) (by simp)]
      by_cases hneg : (chainDiffs p2.1 (rest.map Prod.fst)).any (fun d => decide (d < 0))
      · rw [if_pos hneg, exceptErrBind]
        simp [diffs, chainDiffs, hd, hneg]
      · rw [if_neg hneg, exceptOkBind]
        by_cases hirr :
            (chainDiffs p2.1 (rest.map Prod.fst)).any
              (fun d => decide (eps < d - (p2.1 - p1.1)))
        · simp [diffs, chainDiffs, hd, hneg, hirr]
        · simp [diffs, chainDiffs, hd, hneg, hirr]

/-! ### Duplicate-id detection (`parse_xml`, `EObject` case, lines 479-516)

For an object element the parser first checks the id against the
descriptor table (`ctx.instances.find(id)`) and errors naming the
previous occurrence's location, then recurses into the children, and only
afterwards inserts `ctx.instances[id]` — an insert-or-overwrite.  The
error carries `(id, previous location, current location)`. -/

/-- An object element of the document: id, byte offset, object children. -/
inductive ONode where
  | mk (id : String) (loc : Nat) (children : List ONode)

/-- The id of an object element. -/
def ONode.id : ONode → String
  | .mk i _ _ => i

/-- The descriptor table's lookup (`ctx.instances.find`). -/
def lookupLoc (tbl : List (String × Nat)) (id : String) : Option Nat :=
  (tbl.find? (fun kv => kv.1 == id)).map Prod.snd

/-- The descriptor table's `ctx.instances[id] = ...`: overwrite the entry in
place when present, append otherwise. -/
def upsert : List (String × Nat) → String → Nat → List (String × Nat)
  | [], id, loc => [(id, loc)]
  | kv :: rest, id, loc =>
      if kv.1 = id then (id, loc) :: rest else kv :: upsert rest id loc

mutual

/-- The `EObject` registration order of `parse_xml`: duplicate check, then
children, then table insertion. -/
def registerNode : List (String × Nat) → ONode → Except (String × Nat × Nat) (List (String × Nat))
  | tbl, .mk id loc cs =>
      match lookupLoc tbl id with
      | some prev => .error (id, prev, loc)
      | none => do
          let tbl2 ← registerChildren tbl cs
          .ok (upsert tbl2 id loc)

/-- `registerNode` folded over a sibling list. -/
def registerChildren : List (String × Nat) → List ONode → Except (String × Nat × Nat) (List (String × Nat))
  | tbl, [] => .ok tbl
  | tbl, c :: cs => do
      let tbl2 ← registerNode tbl c
      registerChildren tbl2 cs

end

/-- Looking up the id just upserted finds the new location. -/
theorem lookupLoc_upsert (tbl : List (String × Nat)) (id : String) (loc : Nat) :
    lookupLoc (upsert tbl id loc) id = some loc := by
  induction tbl with
  | nil => simp [upsert, lookupLoc]
  | cons kv rest ih =>
      by_cases h : kv.1 = id
      · simp [upsert, lookupLoc, h]
      · rw [upsert, if_neg h, lookupLoc, List.find?_cons_of_neg _ (by simpa using h)]
        exact ih

/-- Upserting an id twice keeps only the outer write. -/
theorem upsert_upsert (tbl : List (String × Nat)) (id : String) (l1 l2 : Nat) :
    upsert (upsert tbl id l1) id l2 = upsert tbl id l2 := by
  induction tbl with
  | nil => simp [upsert]
  | cons kv rest ih =>
      by_cases h : kv.1 = id
      · simp [upsert, h]
      · simp [upsert, h, ih]

/-- C5 counterexample: an object with id `x` containing a descendant object
with the same id `x` registers without any error — the ancestor's final
insertion silently overwrites the descendant's descriptor — although the
claim says Pass 1 fails for duplicate ids whether the two objects are
siblings or nested. -/
theorem c5_duplicate_id_counterexample :
    registerNode [] (.mk "x" 1 [.mk "x" 3 []]) = .ok [("x", 1)] := by
  rfl

/-- C5 amended: duplicate ids between objects where neither contains the
other (two siblings here) are a hard error reporting the first
occurrence's location (and the second's); but when one object is a
descendant of the other, registration succeeds and the ancestor's
descriptor overwrites the descendant's table entry. -/
theorem c5_duplicate_id_amended (tbl : List (String × Nat)) (s : String) (l1 l2 : Nat)
    (h : lookupLoc tbl s = none) :
    registerChildren tbl [.mk s l1 [], .mk s l2 []] = .error (s, l1, l2) ∧
    registerNode tbl (.mk s l1 [.mk s l2 []]) = .ok (upsert tbl s l1) := by
  constructor
  · simp only [registerChildren, registerNode, h, registerChildren, exceptOkBind]
    simp [lookupLoc_upsert, exceptOkBind, exceptErrBind]
  · simp only [registerNode, h, registerChildren, exceptOkBind]
    simp [upsert_upsert, exceptOkBind]

/-- C5 witness: the amended duplicate-id behaviour at a concrete table and
id. -/
theorem c5_duplicate_id_amended_witness :
    registerChildren [] [.mk "x" 1 [], .mk "x" 5 []] = .error ("x", 1, 5) ∧
    registerNode [] (.mk "x" 1 [.mk "x" 5 []]) = .ok [("x", 1)] :=
  c5_duplicate_id_amended [] "x" 1 5 rfl

/-! ### Transform evaluation (`parse_xml`, `ETransform` and the transform
operation cases, lines 856-933)

Entering a `transform` element resets the parse context's accumulator to
the identity; each child operation then performs
`ctx.transform = Op * ctx.transform` (a left-multiplication); at the
close of the element the accumulator is recorded in the parent property
bag under the transform's `name`.  `Transform4f::translate` and
`Transform4f::scale` are the standard affine matrices;
`Transform4f::rotate` and `Transform4f::look_at` live in the external
header `mitsuba/core/transform.h`, so those operations carry their
resulting matrix. -/

/-- 4×4 rational matrices standing for `Transform4f`. -/
abbrev M4 := Matrix (Fin 4) (Fin 4) ℚ

/-- `Transform4f::translate`. -/
def translateMat (x y z : ℚ) : M4 :=
  Matrix.of ![![1, 0, 0, x], ![0, 1, 0, y], ![0, 0, 1, z], ![0, 0, 0, 1]]

/-- `Transform4f::scale`. -/
def scaleMat (x y z : ℚ) : M4 :=
  Matrix.of ![![x, 0, 0, 0], ![0, y, 0, 0], ![0, 0, z, 0], ![0, 0, 0, 1]]

/-- A child operation of a `transform` element.  `rotate` and `lookat`
carry the matrix the external `Transform4f` constructor returns; `matrixOp`
carries the 16 parsed row-major values. -/
inductive TOp where
  | translate (x y z : ℚ)
  | scale (x y z : ℚ)
  | rotate (m : M4)
  | lookat (m : M4)
  | matrixOp (m : M4)

/-- The matrix each operation contributes. -/
def opMatrix : TOp → M4
  | .translate x y z => translateMat x y z
  | .scale x y z => scaleMat x y z
  | .rotate m => m
  | .lookat m => m
  | .matrixOp m => m

/-- The parse context's transform accumulator. -/
structure TCtx where
  transform : M4

/-- One transform-operation case of `parse_xml`:
`ctx.transform = Op * ctx.transform`. -/
def applyTransformOp (ctx : TCtx) (op : TOp) : TCtx :=
  ⟨opMatrix op * ctx.transform⟩

/-- The recursive traversal of a `transform` element's children, threading
the context. -/
def runTransformChildren : TCtx → List TOp → TCtx
  | ctx, [] => ctx
  | ctx, op :: rest => runTransformChildren (applyTransformOp ctx op) rest

/-- The `ETransform` case of `parse_xml`: reset the accumulator to the
identity, traverse the children, and record the accumulator in the parent
property bag under the element's `name`. -/
def parseTransformElem (name : String) (ops : List TOp) (props : List (String × M4)) :
    List (String × M4) :=
  props ++ [(name, (runTransformChildren ⟨1⟩ ops).transform)]

/-- Traversing the children folds the left-multiplication over the list. -/
theorem runTransformChildren_foldl (ops : List TOp) :
    ∀ ctx : TCtx, runTransformChildren ctx ops =
      ⟨ops.foldl (fun acc op => opMatrix op * acc) ctx.transform⟩ := by
  induction ops with
  | nil => intro ctx; rfl
  | cons op rest ih => intro ctx; rw [runTransformChildren, ih, List.foldl_cons]; rfl

/-- A left-multiplying fold equals the product of the reversed operation
matrices. -/
theorem foldl_leftmul_eq_reverse_prod (ops : List TOp) :
    ∀ a : M4, ops.foldl (fun acc op => opMatrix op * acc) a =
      ((ops.map opMatrix).reverse).prod * a := by
  induction ops with
  | nil => intro a; simp
  | cons op rest ih =>
      intro a
      rw [List.foldl_cons, ih, List.map_cons, List.reverse_cons, List.prod_append]
      simp [Matrix.mul_assoc]

/-- C6: the matrix a `transform` element records in the parent's property
bag under its name equals the left-fold, in document order, of its child
operations over the identity, each operation left-multiplied onto the
running accumulator (equivalently, the product of the operation matrices
in reverse document order). -/
theorem c6_transform_fold (name : String) (ops : List TOp) (props : List (String × M4)) :
    parseTransformElem name ops props =
      props ++ [(name, ops.foldl (fun acc op => opMatrix op * acc) 1)] ∧
    ops.foldl (fun acc op => opMatrix op * acc) 1 = ((ops.map opMatrix).reverse).prod := by
  constructor
  · rw [parseTransformElem, runTransformChildren_foldl]
  · rw [foldl_leftmul_eq_reverse_prod, mul_one]

/-! ### The `value` attribute of `translate` / `rotate` / `scale`
(`expand_value_to_xyz`, lines 252-271, and `parse_vector`, lines 287-301)

`expand_value_to_xyz` tokenizes the `value` attribute (default delimiters
are comma and space), rejects mixing `value` with `x`/`y`/`z`, broadcasts
a single token to all three axes, splits three tokens, and errors on any
other count.  `parse_vector` then reads each axis attribute with `stof`,
using the supplied default (`0` in general, `1` for `scale`) where an
attribute is absent or empty. -/

/-- Split a character list at delimiter characters (`string::tokenize`
before empty tokens are dropped). -/
def splitChars (p : Char → Bool) : List Char → List (List Char)
  | [] => [[]]
  | c :: rest =>
      if p c then [] :: splitChars p rest
      else
        match splitChars p rest with
        | [] => [[c]]
        | t :: ts => (c :: t) :: ts

/-- `string::tokenize` with its default delimiters `", "`, dropping empty
tokens. -/
def tokenize (s : String) : List String :=
  ((splitChars (fun c => c = ' ' || c = ',') s.data).map String.mk).filter (fun t => t != "")

/-- Digit test for the decimal parser. -/
def isDigitChar (c : Char) : Bool := decide (48 ≤ c.toNat ∧ c.toNat ≤ 57)

/-- Numeric value of a decimal digit. -/
def digitVal (c : Char) : ℚ := ((c.toNat - 48 : ℕ) : ℚ)

/-- Value of an integer digit string. -/
def natPart (ds : List Char) : ℚ := ds.foldl (fun n c => 10 * n + digitVal c) 0

/-- Value of a fractional digit string. -/
def fracPart (ds : List Char) : ℚ := ds.foldr (fun c acc => (digitVal c + acc) / 10) 0

/-- `detail::stof` (lines 92-97: `std::stof` followed by
`check_whitespace_only`) on the decimal forms the loader's attributes use:
optional sign, digits, optional fraction; trailing whitespace is accepted,
any other trailing garbage rejects. -/
def parseQ (s : String) : Option ℚ :=
  let cs := s.data.dropWhile (fun c => c = ' ')
  let sc : ℚ × List Char :=
    match cs with
    | '-' :: r => (-1, r)
    | '+' :: r => (1, r)
    | _ => (1, cs)
  let ds := sc.2.takeWhile isDigitChar
  let rest := sc.2.dropWhile isDigitChar
  if ds.isEmpty then none
  else
    match rest with
    | [] => some (sc.1 * natPart ds)
    | '.' :: r =>
        let fs := r.takeWhile isDigitChar
        let rest2 := r.dropWhile isDigitChar
        if rest2.all (fun c => c = ' ') then some (sc.1 * (natPart ds + fracPart fs))
        else none
    | _ => if rest.all (fun c => c = ' ') then some (sc.1 * natPart ds) else none

/-- The attributes of a `translate` / `rotate` / `scale` element the vector
logic reads. -/
structure VAttrs where
  value : Option String
  x : Option String
  y : Option String
  z : Option String

/-- `expand_value_to_xyz`: tokenize `value`, reject mixing it with
`x`/`y`/`z`, broadcast one token, split three, reject other counts. -/
def expand_value_to_xyz (a : VAttrs) : Except String VAttrs :=
  match a.value with
  | none => .ok a
  | some v =>
      let list := tokenize v
      if a.x.isSome || a.y.isSome || a.z.isSome then
        .error "cannot mix value and x y z attributes"
      else if list.length = 1 then
        .ok ⟨none, some (list.headD ""), some (list.headD ""), some (list.headD "")⟩
      else if list.length = 3 then
        .ok ⟨none, some (list.headD ""), some (list.getD 1 ""), some (list.getD 2 "")⟩
      else .error "value attribute must have exactly 1 or 3 elements"

/-- One axis read of `parse_vector`: the default when the attribute is
absent or empty, otherwise `stof`. -/
def parseVecComp (a : Option String) (dv : ℚ) : Option ℚ :=
  match a with
  | none => some dv
  | some s => if s = "" then some dv else parseQ s

/-- `parse_vector` with default value `dv`. -/
def parse_vector (a : VAttrs) (dv : ℚ) : Except String (ℚ × ℚ × ℚ) :=
  match parseVecComp a.x dv, parseVecComp a.y dv, parseVecComp a.z dv with
  | some x, some y, some z => .ok (x, y, z)
  | _, _, _ => .error "could not parse floating point value"

/-- The shared `ETranslate` / `ERotate` / `EScale` vector logic of
`parse_xml`: `expand_value_to_xyz` then `parse_vector` (with default 0 for
translate and rotate, 1 for scale). -/
def handleVec (a : VAttrs) (dv : ℚ) : Except String (ℚ × ℚ × ℚ) := do
  let a2 ← expand_value_to_xyz a
  parse_vector a2 dv

/-- The empty string parses to no float. -/
theorem parseQ_empty : parseQ "" = none := rfl

/-- C7: on `translate`, `scale` and `rotate` elements, a single-token
`value` broadcasts to `x = y = z`; a three-token `value` splits into
`x, y, z`; any other token count errors; mixing `value` with any of
`x`/`y`/`z` errors; and an unspecified component defaults to 0 with the
translate default and to 1 with the scale default. -/
theorem c7_value_to_xyz :
    (∀ (dv : ℚ) (s t : String) (q : ℚ), tokenize s = [t] → parseQ t = some q →
      handleVec ⟨some s, none, none, none⟩ dv = .ok (q, q, q)) ∧
    (∀ (dv : ℚ) (s t1 t2 t3 : String) (q1 q2 q3 : ℚ), tokenize s = [t1, t2, t3] →
      parseQ t1 = some q1 → parseQ t2 = some q2 → parseQ t3 = some q3 →
      handleVec ⟨some s, none, none, none⟩ dv = .ok (q1, q2, q3)) ∧
    (∀ (dv : ℚ) (s : String), (tokenize s).length ≠ 1 → (tokenize s).length ≠ 3 →
      handleVec ⟨some s, none, none, none⟩ dv =
        .error "value attribute must have exactly 1 or 3 elements") ∧
    (∀ (dv : ℚ) (s : String) (x y z : Option String), (x.isSome || y.isSome || z.isSome) = true →
      handleVec ⟨some s, x, y, z⟩ dv = .error "cannot mix value and x y z attributes") ∧
    (∀ (sx : String) (q : ℚ), parseQ sx = some q →
      handleVec ⟨none, some sx, none, none⟩ 0 = .ok (q, 0, 0) ∧
      handleVec ⟨none, some sx, none, none⟩ 1 = .ok (q, 1, 1)) := by
  have hne : ∀ (t : String) (q : ℚ), parseQ t = some q → t ≠ "" := by
    intro t q hq h
    rw [h, parseQ_empty] at hq
    cases hq
  refine ⟨?_, ?_, ?_, ?_, ?_⟩
  · intro dv s t q hs hq
    simp [handleVec, expand_value_to_xyz, hs, exceptOkBind, parse_vector, parseVecComp,
          hne t q hq, hq]
  · intro dv s t1 t2 t3 q1 q2 q3 hs h1 h2 h3
    simp [handleVec, expand_value_to_xyz, hs, exceptOkBind, parse_vector, parseVecComp,
          hne t1 q1 h1, hne t2 q2 h2, hne t3 q3 h3, h1, h2, h3]
  · intro dv s h1 h3
    simp [handleVec, expand_value_to_xyz, h1, h3, exceptErrBind]
  · intro dv s x y z hmix
    simp [handleVec, expand_value_to_xyz, hmix, exceptErrBind]
  · intro sx q hq
    constructor <;>
      simp [handleVec, expand_value_to_xyz, exceptOkBind, parse_vector, parseVecComp,
            hne sx q hq, hq]

/-- The digit string `1` parses to 1. -/
theorem parseQ_one : parseQ "1" = some 1 := by
  have h1 : "1".data = ['1'] := rfl
  have h2 : ('1').toNat = 49 := rfl
  simp [parseQ, h1, h2, List.dropWhile, List.takeWhile, isDigitChar, natPart, digitVal,
        List.isEmpty]

/-- The digit string `2` parses to 2. -/
theorem parseQ_two : parseQ "2" = some 2 := by
  have h1 : "2".data = ['2'] := rfl
  have h2 : ('2').toNat = 50 := rfl
  simp [parseQ, h1, h2, List.dropWhile, List.takeWhile, isDigitChar, natPart, digitVal,
        List.isEmpty]

/-- The digit string `3` parses to 3. -/
theorem parseQ_three : parseQ "3" = some 3 := by
  have h1 : "3".data = ['3'] := rfl
  have h2 : ('3').toNat = 51 := rfl
  simp [parseQ, h1, h2, List.dropWhile, List.takeWhile, isDigitChar, natPart, digitVal,
        List.isEmpty]

/-- The digit string `5` parses to 5. -/
theorem parseQ_five : parseQ "5" = some 5 := by
  have h1 : "5".data = ['5'] := rfl
  have h2 : ('5').toNat = 53 := rfl
  simp [parseQ, h1, h2, List.dropWhile, List.takeWhile, isDigitChar, natPart, digitVal,
        List.isEmpty]

/-- C7 witness: the `value` / axis-attribute behaviour at concrete inputs:
broadcast of `"2"`, split of `"1 2 3"`, rejection of a two-token value,
rejection of mixing `value` with `x`, and the translate/scale defaults for
a lone `x="5"`. -/
theorem c7_value_to_xyz_witness :
    handleVec ⟨some "2", none, none, none⟩ 0 = .ok (2, 2, 2) ∧
    handleVec ⟨some "1 2 3", none, none, none⟩ 1 = .ok (1, 2, 3) ∧
    handleVec ⟨some "1 2", none, none, none⟩ 0 =
      .error "value attribute must have exactly 1 or 3 elements" ∧
    handleVec ⟨some "1", some "4", none, none⟩ 0 =
      .error "cannot mix value and x y z attributes" ∧
    handleVec ⟨none, some "5", none, none⟩ 0 = .ok (5, 0, 0) ∧
    handleVec ⟨none, some "5", none, none⟩ 1 = .ok (5, 1, 1) :=
  ⟨c7_value_to_xyz.1 0 "2" "2" 2 (by decide) parseQ_two,
   c7_value_to_xyz.2.1 1 "1 2 3" "1" "2" "3" 1 2 3 (by decide)
     parseQ_one parseQ_two parseQ_three,
   c7_value_to_xyz.2.2.1 0 "1 2" (by decide) (by decide),
   c7_value_to_xyz.2.2.2.1 0 "1" (some "4") none none (by decide),
   (c7_value_to_xyz.2.2.2.2 "5" 5 parseQ_five).1,
   (c7_value_to_xyz.2.2.2.2 "5" 5 parseQ_five).2⟩

/-! ### `default` declarations and parameter substitution
(`parse_xml`, `EDefault` case lines 549-563 and the substitution loop
lines 382-392)

A `default` element appends `(name, value)` to the ordered parameter list
only when no entry with that name exists (an empty name errors).
Substitution replaces every `$name` occurrence in an attribute value using
the parameters in list order. -/

/-- Whether the parameter list holds an entry named `n`. -/
def hasParam (ps : List (String × String)) (n : String) : Bool :=
  ps.any (fun kv => kv.1 == n)

/-- The `EDefault` case of `parse_xml`: error on an empty name, otherwise
append the pair when the name is not yet bound. -/
def applyDefaultE (ps : List (String × String)) (d : String × String) :
    Except String (List (String × String)) :=
  if d.1 = "" then .error "default name must by nonempty"
  else if hasParam ps d.1 then .ok ps
  else .ok (ps ++ [d])

/-- The substitution loop of `parse_xml`: replace each `$name` by its value,
in parameter-list order (`string::replace_inplace` replaces every
occurrence). -/
def substituteParams (ps : List (String × String)) (s : String) : String :=
  ps.foldl (fun v kv => v.replace ("$" ++ kv.1) kv.2) s

/-- Processing a `default` never removes an existing binding. -/
theorem hasParam_applyDefaultE (ps ps' : List (String × String)) (d : String × String)
    (n : String) (h : applyDefaultE ps d = .ok ps') (hn : hasParam ps n = true) :
    hasParam ps' n = true := by
  by_cases he : d.1 = ""
  · simp [applyDefaultE, he] at h
  · by_cases hf : hasParam ps d.1
    · simp [applyDefaultE, he, hf] at h
      rw [← h]
      exact hn
    · simp [applyDefaultE, he, hf] at h
      rw [← h]
      simp [hasParam] at hn ⊢
      exact Or.inl hn

/-- C8: parameter substitution is order-insensitive between `default`
declarations and caller-supplied parameters with caller-supplied values
winning: a `default` whose name the caller already bound is a no-op at
whatever position it is declared, so the parameter list — and hence every
substituted attribute value — is the same with or without it; and in
general a `default` appends its pair exactly when the name is not already
present, so a later `default` never overrides an earlier entry. -/
theorem c8_default_order (P ds1 ds2 : List (String × String)) (n v : String)
    (hn : n ≠ "") (hP : hasParam P n = true) :
    List.foldlM applyDefaultE P (ds1 ++ (n, v) :: ds2) =
      List.foldlM applyDefaultE P (ds1 ++ ds2) ∧
    (∀ s, (List.foldlM applyDefaultE P (ds1 ++ (n, v) :: ds2)).map
        (fun ps => substituteParams ps s) =
      (List.foldlM applyDefaultE P (ds1 ++ ds2)).map (fun ps => substituteParams ps s)) ∧
    (∀ (ps : List (String × String)) (m w : String), m ≠ "" →
      applyDefaultE ps (m, w) = .ok (if hasParam ps m then ps else ps ++ [(m, w)])) := by
  have key : ∀ (ds1 : List (String × String)) (P : List (String × String)),
      hasParam P n = true →
      List.foldlM applyDefaultE P (ds1 ++ (n, v) :: ds2) =
        List.foldlM applyDefaultE P (ds1 ++ ds2) := by
    intro ds1
    induction ds1 with
    | nil =>
        intro P hP
        have : applyDefaultE P (n, v) = .ok P := by
          simp [applyDefaultE, hn, hP]
        simp [List.foldlM_cons, this, exceptOkBind]
    | cons d rest ih =>
        intro P hP
        simp only [List.cons_append, List.foldlM_cons]
        by_cases he : d.1 = ""
        · have : applyDefaultE P d = .error "default name must by nonempty" := by
            simp [applyDefaultE, he]
          rw [this, exceptErrBind, exceptErrBind]
        · by_cases hf : hasParam P d.1
          · have : applyDefaultE P d = .ok P := by simp [applyDefaultE, he, hf]
            rw [this, exceptOkBind, exceptOkBind, ih P hP]
          · have : applyDefaultE P d = .ok (P ++ [d]) := by simp [applyDefaultE, he, hf]
            rw [this, exceptOkBind, exceptOkBind, ih (P ++ [d])]
            simp [hasParam] at hP ⊢
            exact Or.inl hP
  refine ⟨key ds1 P hP, fun s => by rw [key ds1 P hP], fun ps m w hm => ?_⟩
  by_cases hf : hasParam ps m <;> simp [applyDefaultE, hm, hf]

/-- C8 witness: a caller-bound `default` is a no-op at a concrete parameter
list, so the list and all substitutions agree with and without it. -/
theorem c8_default_order_witness :
    List.foldlM applyDefaultE [("a", "1")] ([] ++ ("a", "9") :: [("b", "2")]) =
      List.foldlM applyDefaultE [("a", "1")] ([] ++ [("b", "2")]) ∧
    (∀ s, (List.foldlM applyDefaultE [("a", "1")] ([] ++ ("a", "9") :: [("b", "2")])).map
        (fun ps => substituteParams ps s) =
      (List.foldlM applyDefaultE [("a", "1")] ([] ++ [("b", "2")])).map
        (fun ps => substituteParams ps s)) ∧
    (∀ (ps : List (String × String)) (m w : String), m ≠ "" →
      applyDefaultE ps (m, w) = .ok (if hasParam ps m then ps else ps ++ [(m, w)])) :=
  c8_default_order [("a", "1")] [] [("b", "2")] "a" "9" (by decide) (by decide)

/-! ### `include` handling and the root version requirement
(`parse_xml`, version check lines 434-437 and `EInclude` case lines
566-609)

`parse_xml` errors when `depth == 0` and the element carries no `version`
attribute; children are always parsed at `depth + 1`.  An `include` whose
loaded document has root tag `scene` parses the root's children at depth
1; any other included root is parsed in place at depth 0. -/

/-- The slice of an element the version logic reads: tag, whether a
`version` attribute is present, and the children. -/
inductive INode where
  | mk (tag : String) (hasVersion : Bool) (children : List INode)

mutual

/-- The version-requirement slice of `parse_xml` at a given depth. -/
def parseNode : INode → Nat → Except String Unit
  | .mk _ hasV cs, depth =>
      if depth = 0 ∧ hasV = false then .error "missing version attribute in root element"
      else parseChildren cs (depth + 1)

/-- `parse_xml` over a child list, each child at the given depth. -/
def parseChildren : List INode → Nat → Except String Unit
  | [], _ => .ok ()
  | c :: cs, d => do
      let _ ← parseNode c d
      parseChildren cs d

end

/-- The `EInclude` dispatch on the included document's root. -/
def processInclude (r : INode) : Except String Unit :=
  match r with
  | .mk t _ cs => if t = "scene" then parseChildren cs 1 else parseNode r 0

mutual

/-- At positive depth the version slice never fails. -/
theorem parseNode_ok : ∀ (n : INode) (d : Nat), parseNode n (d + 1) = .ok ()
  | .mk t hv cs, d => by
      rw [parseNode]
      simp only [Nat.succ_ne_zero, false_and, if_false]
      exact parseChildren_ok cs (d + 1)

/-- At positive depth the child traversal never fails. -/
theorem parseChildren_ok : ∀ (cs : List INode) (d : Nat), parseChildren cs (d + 1) = .ok ()
  | [], _ => rfl
  | c :: cs, d => by
      rw [parseChildren, parseNode_ok c d, exceptOkBind]
      exact parseChildren_ok cs d

end

/-- C10: an included document whose root is not named `scene` is parsed at
depth 0 and therefore fails without a `version` attribute of its own; with
one it loads; and an included `scene` root has its children parsed at
depth 1, so the included file needs no `version` attribute. -/
theorem c10_include_version :
    (∀ (t : String) (cs : List INode), t ≠ "scene" →
      processInclude (.mk t false cs) = .error "missing version attribute in root element") ∧
    (∀ (t : String) (cs : List INode), processInclude (.mk t true cs) = .ok ()) ∧
    (∀ cs : List INode, processInclude (.mk "scene" false cs) = .ok ()) := by
  refine ⟨fun t cs ht => ?_, fun t cs => ?_, fun cs => ?_⟩
  · simp [processInclude, ht, parseNode]
  · by_cases ht : t = "scene"
    · simp [processInclude, ht, parseChildren_ok cs 0]
    · simp [processInclude, ht, parseNode]
      exact parseChildren_ok cs 0
  · simp [processInclude, parseChildren_ok cs 0]

/-- C10 witness: a versionless `shape` include fails, a versioned one
loads, and a versionless `scene` include with a versionless child loads. -/
theorem c10_include_version_witness :
    processInclude (.mk "shape" false []) =
      .error "missing version attribute in root element" ∧
    processInclude (.mk "shape" true [.mk "float" false []]) = .ok () ∧
    processInclude (.mk "scene" false [.mk "shape" false []]) = .ok () :=
  ⟨c10_include_version.1 "shape" [] (by decide),
   c10_include_version.2.1 "shape" [.mk "float" false []],
   c10_include_version.2.2 [.mk "shape" false []]⟩

end MitsubaXML
